import Mathlib

/-!
Verification of the GraphFlow parallel execution engine
(`agent/GraphFlow/engine.py` and `agent/GraphFlow/graphflow.py`).

The Python data and control flow is shallowly embedded:

* Python values that the engine manipulates (None, scalars, lists, dicts)
  are the inductive type `Value`; Python dicts are insertion-ordered
  association lists with unique keys, written `List (String × Value)`.
* Python `+` (the only operation inside the reducers that can raise a
  `TypeError`) is modelled by the partial function `pyAdd`; the four
  built-in reducers are `Option`-valued so that "the reducer raised" is
  representable, and their totality is a theorem rather than an assumption.
* The reducer registry is modelled as the default built-in registry
  (`append`, `extend`, `set`, `merge`): every `State` the engine builds for
  the graphs considered here installs exactly these reducers.
* Where the Python code iterates over a `set` (whose order CPython leaves
  unspecified), the model fixes first-occurrence order.
* The asynchronous scheduler is modelled as a deterministic transition
  system in which dispatched node bodies complete in dispatch order, one
  completion per wait - one realizable schedule of the asyncio code.
-/

set_option maxRecDepth 10000

/-- A Python value as the engine sees it: `None`, a scalar (bool, int or
string), a list, or a string-keyed dict (insertion-ordered). -/
inductive Value where
  | vnone
  | vbool (b : Bool)
  | vint (n : Int)
  | vstr (s : String)
  | vlist (xs : List Value)
  | vdict (m : List (String × Value))

/-- Python `isinstance(v, list)`. -/
def Value.isList : Value → Bool
  | .vlist _ => true
  | _ => false

/-- Python `isinstance(v, dict)`. -/
def Value.isDict : Value → Bool
  | .vdict _ => true
  | _ => false

/-- Python `v is None`. -/
def Value.isNone : Value → Bool
  | .vnone => true
  | _ => false

/-- Python truthiness of a value. -/
def Value.truthy : Value → Bool
  | .vnone => false
  | .vbool b => b
  | .vint n => n != 0
  | .vstr s => s != ""
  | .vlist xs => !xs.isEmpty
  | .vdict m => !m.isEmpty

/-- Lookup in an insertion-ordered association list (Python `d.get(k)` /
`d[k]`, returning `none` for a missing key). -/
def alookup {β : Type} : List (String × β) → String → Option β
  | [], _ => none
  | (k, v) :: rest, key => if key = k then some v else alookup rest key

/-- Assignment `d[k] = v` on an insertion-ordered association list: an
existing key keeps its position, a new key is appended (CPython dict
semantics). -/
def aset {β : Type} : List (String × β) → String → β → List (String × β)
  | [], key, val => [(key, val)]
  | (k, v) :: rest, key, val =>
      if k = key then (k, val) :: rest else (k, v) :: aset rest key val

/-- Python `+`, on the shapes the reducers can feed it. It raises a
`TypeError` (here: `none`) unless both operands concatenate. -/
def pyAdd : Value → Value → Option Value
  | .vlist xs, .vlist ys => some (.vlist (xs ++ ys))
  | .vstr a, .vstr b => some (.vstr (a ++ b))
  | .vint a, .vint b => some (.vint (a + b))
  | _, _ => none

/-- `State._append_reducer`: append new item to list, or create list if
needed. -/
def appendReducer (current new : Value) : Option Value :=
  if current.isNone then
    some (if !new.isList then .vlist [new] else new)
  else if current.isList then
    if new.isList then pyAdd current new
    else pyAdd current (.vlist [new])
  else
    some (.vlist [current, new])

/-- `State._extend_reducer`: extend list with new items. -/
def extendReducer (current new : Value) : Option Value :=
  if current.isNone then
    some (if new.isList then new else .vlist [new])
  else if current.isList && new.isList then
    pyAdd current new
  else if current.isList then
    pyAdd current (.vlist [new])
  else
    pyAdd (.vlist [current]) (if new.isList then new else .vlist [new])

/-- `State._set_reducer`: replace current value with new value. -/
def setReducer (_current new : Value) : Option Value :=
  some new

/-- `dict.copy()` followed by `dict.update(new)`: shallow right-biased
union, insertion order of the left operand preserved. -/
def dictUpdate (c n : List (String × Value)) : List (String × Value) :=
  n.foldl (fun acc kv => aset acc kv.1 kv.2) c

/-- `State._merge_reducer`: merge dictionaries or replace other types. -/
def mergeReducer (current new : Value) : Option Value :=
  match current, new with
  | .vdict c, .vdict n => some (.vdict (dictUpdate c n))
  | _, _ => some new

/-- The names registered by `State._set_default_reducers` (the default
reducer registry; the graphs considered here install no custom reducers). -/
def builtinReducerNames : List String := ["append", "extend", "set", "merge"]

/-- Look a reducer up in the default registry and run it. -/
def runReducer : String → Value → Value → Option Value
  | "append", c, n => appendReducer c n
  | "extend", c, n => extendReducer c n
  | "set", c, n => setReducer c n
  | "merge", c, n => mergeReducer c n
  | _, _, _ => none

/-- Total wrapper around `runReducer`; the default is never reached for the
built-in names (see the reducer-totality theorem below). -/
def runReducerT (name : String) (c n : Value) : Value :=
  (runReducer name c n).getD .vnone

/-- Python `isinstance(old, dict)` applied to the result of a `.get` that
may have returned `None` for a missing key. -/
def optIsDict : Option Value → Bool
  | some o => o.isDict
  | none => false

/-- Python `s.endswith(post)`, computed on the character lists (the
library's `String.endsWith` is used nowhere because its byte-level loop
does not reduce inside the kernel). -/
def strEndsWith (s post : String) : Bool :=
  post.data.isSuffixOf s.data

/-- The reducer-name selection chain of `State.merge` (engine.py lines
94-105): caller override if truthy and registered, else `_list`/`_history`
suffix, else the literal key `results`, else dict-dict merge, else set. -/
def chooseReducerName (fieldReducers : List (String × String)) (key : String)
    (old : Option Value) (value : Value) : String :=
  match alookup fieldReducers key with
  | some name =>
      if name ≠ "" && builtinReducerNames.contains name then name
      else chooseReducerDefault key old value
  | none => chooseReducerDefault key old value
where
  chooseReducerDefault (key : String) (old : Option Value) (value : Value) :
      String :=
    if strEndsWith key "_list" || strEndsWith key "_history" then "extend"
    else if key = "results" then "extend"
    else if value.isDict && optIsDict old then "merge"
    else "set"

/-- A map-reduce `Send` target inside a `goto` list. -/
inductive GotoItem where
  | str (s : String)
  | send (node : String) (arg : Value)

/-- The `goto` field of a `Command`: `None`, a node name, a single `Send`,
or a list of node names and `Send`s. -/
inductive Goto where
  | null
  | str (s : String)
  | send (node : String) (arg : Value)
  | list (items : List GotoItem)

/-- Python truthiness of a `goto` value (`None` and empty containers are
falsy; a `Send` dataclass instance is always truthy). -/
def Goto.truthy : Goto → Bool
  | .null => false
  | .str s => s != ""
  | .send _ _ => true
  | .list items => !items.isEmpty

/-- `graphflow.Command` (the `resume` field is never read by the engine and
is omitted). `update = none` models `update=None`. -/
structure Command where
  update : Option (List (String × Value))
  goto : Goto

/-- Python truthiness of `command.update`. -/
def Command.updateTruthy (c : Command) : Bool :=
  match c.update with
  | some u => !u.isEmpty
  | none => false

/-- `engine.State`: the dict payload plus the transient `_last_command`
marker. The reducer registry is the default built-in registry. -/
structure State where
  data : List (String × Value)
  lastCommand : Option Command

/-- `self.get(key)` on the dict payload. -/
def State.getOpt (s : State) (key : String) : Option Value :=
  alookup s.data key

/-- The per-key body of the `State.merge` loop: choose the reducer from the
receiver (`self.get(key)`) and apply it; an absent key reaches the reducer
as Python `None`. -/
def mergeStepVal (s : State) (fieldReducers : List (String × String))
    (key : String) (value : Value) : Value :=
  runReducerT (chooseReducerName fieldReducers key (s.getOpt key) value)
    ((s.getOpt key).getD .vnone) value

/-- The `for key, value in update.items()` loop of `State.merge`: every
iteration reads old values from the original receiver `s` and writes into
the accumulating new dict. -/
def mergeLoop (s : State) (fieldReducers : List (String × String)) :
    List (String × Value) → List (String × Value) → List (String × Value)
  | acc, [] => acc
  | acc, (key, value) :: rest =>
      mergeLoop s fieldReducers (aset acc key (mergeStepVal s fieldReducers key value)) rest

/-- `State.merge`: returns a new `State` built from a shallow clone of the
receiver's dict; the fresh `State.__init__` leaves `_last_command = None`. -/
def State.merge (s : State) (update : List (String × Value))
    (fieldReducers : List (String × String)) : State :=
  { data := mergeLoop s fieldReducers s.data update, lastCommand := none }

/-- `State.copy`: deep copy of the dict payload (Python values here are
immutable, so the deep copy is the identity on the data) and an explicit
copy of `_last_command`. -/
def State.copy (s : State) : State :=
  { data := s.data, lastCommand := s.lastCommand }

/-- A node body's return value: a plain Python value or a `Command`. -/
inductive PyResult where
  | val (v : Value)
  | cmd (c : Command)

/-- Python truthiness of a node result (`Command` dataclass instances are
always truthy). -/
def PyResult.truthy : PyResult → Bool
  | .val v => v.truthy
  | .cmd _ => true

/-- Outcome of running a node body: a result, or a raised exception. -/
inductive NodeOutcome where
  | ok (r : PyResult)
  | raised

/-- Result of a conditional-edge predicate: a node name, a list of node
names, or something else (ignored by `get_successors`). -/
inductive CondRes where
  | str (s : String)
  | strList (xs : List String)
  | other

/-- `graphflow.StateGraph`, restricted to the fields the engine reads:
node map, static edges (a dict: ONE target per source), conditional-edge
predicates and the entry point. -/
structure Graph where
  nodes : List (String × (State → NodeOutcome))
  edges : List (String × String)
  conditionalEdges : List (String × (State → CondRes))
  entryPoint : Option String

/-- `StateGraph.add_edge`: the dict assignment `self.edges[from_node] =
to_node` - a second edge from the same source overwrites the first. -/
def Graph.addEdge (g : Graph) (fromNode toNode : String) : Graph :=
  { g with edges := aset g.edges fromNode toNode }

/-- Append to a `defaultdict(list)` entry, creating it on first touch. -/
def appendAt {β : Type} : List (String × List β) → String → β → List (String × List β)
  | [], key, val => [(key, [val])]
  | (k, vs) :: rest, key, val =>
      if k = key then (k, vs ++ [val]) :: rest else (k, vs) :: appendAt rest key val

/-- `ParallelGraphExecutor` after `_build_topology`: successor and
predecessor adjacency built from the static edges, skipping edges to the
`__end__` sentinel. -/
structure Engine where
  graph : Graph
  maxConcurrent : Nat
  successors : List (String × List String)
  predecessors : List (String × List String)

/-- `ParallelGraphExecutor.__init__` + `_build_topology`. -/
def mkEngine (g : Graph) (maxConcurrent : Nat) : Engine :=
  let topo := g.edges.foldl
    (fun acc fe =>
      if fe.2 ≠ "__end__" then (appendAt acc.1 fe.1 fe.2, appendAt acc.2 fe.2 fe.1)
      else acc)
    (([], []) : List (String × List String) × List (String × List String))
  { graph := g, maxConcurrent := maxConcurrent,
    successors := topo.1, predecessors := topo.2 }

/-- The fallback branch of `get_entry_nodes`: `all_nodes` minus the union
of the VALUES of the predecessor map - i.e. minus the set of edge sources
(this is what the code computes; set order modelled as node-map order). -/
def entryNodesNoPreds (E : Engine) : List String :=
  let allNodes := E.graph.nodes.map Prod.fst
  let nodesWithPredecessors :=
    (E.predecessors.map Prod.snd).foldl (fun a b => a ++ b) []
  allNodes.filter (fun n => !(nodesWithPredecessors.contains n))

/-- `ParallelGraphExecutor.get_entry_nodes`: the declared entry point if
truthy, else `entryNodesNoPreds`. -/
def getEntryNodes (E : Engine) : List String :=
  match E.graph.entryPoint with
  | some e => if e ≠ "" then [e] else entryNodesNoPreds E
  | none => entryNodesNoPreds E

/-- `ParallelGraphExecutor.are_dependencies_met`. -/
def areDependenciesMet (E : Engine) (nodeName : String)
    (completed : List String) : Bool :=
  let requiredPredecessors := (alookup E.predecessors nodeName).getD []
  if requiredPredecessors.isEmpty && (alookup E.graph.nodes nodeName).isSome then true
  else requiredPredecessors.all (completed.contains ·)

/-- Normalise a truthy `goto` into plain node ids: a string becomes a
singleton unless it is `__end__`; a list keeps its string entries other
than `__end__`; a bare `Send` contributes nothing (both `get_successors`
and the `ainvoke` command branch use this same normalisation). -/
def gotoIds : Goto → List String
  | .str s => if s ≠ "__end__" then [s] else []
  | .list items =>
      items.filterMap (fun it =>
        match it with
        | .str g => if g ≠ "__end__" then some g else none
        | .send _ _ => none)
  | _ => []

/-- The static-plus-conditional part of `get_successors`: direct edges,
then the conditional predicate's non-sentinel results, deduplicated
(`list(set(...))`, modelled in first-occurrence order). -/
def staticConditionalSuccessors (E : Engine) (nodeName : String) (s : State) :
    List String :=
  let direct := (alookup E.successors nodeName).getD []
  let withCond :=
    match alookup E.graph.conditionalEdges nodeName with
    | some condition =>
        match condition s with
        | .str r => if r ≠ "__end__" then direct ++ [r] else direct
        | .strList rs => direct ++ rs.filter (fun r => r ≠ "__end__")
        | .other => direct
    | none => direct
  withCond.eraseDups

/-- `ParallelGraphExecutor.get_successors`. A truthy-goto marker is
consumed (cleared) and is authoritative; a marker whose `goto` is falsy is
NOT cleared and routing falls through to static/conditional edges. The
returned `State` is the (possibly mutated) input state. -/
def getSuccessors (E : Engine) (nodeName : String) (s : State) :
    List String × State :=
  match s.lastCommand with
  | some command =>
      if command.goto.truthy then
        (gotoIds command.goto, { s with lastCommand := none })
      else
        (staticConditionalSuccessors E nodeName s, s)
  | none => (staticConditionalSuccessors E nodeName s, s)

/-- `engine.NodeExecution`: the node id and the state snapshot the node
body will observe (set at creation, possibly replaced by the fan-in merge
at admission). The remaining bookkeeping fields live in the run state. -/
structure Exec where
  nodeName : String
  state : State

/-- `ParallelGraphExecutor.execute_node`: a node id absent from the node
map raises `KeyError` inside the `try`, indistinguishable from a node-body
failure. -/
def executeNode (E : Engine) (e : Exec) : NodeOutcome :=
  match alookup E.graph.nodes e.nodeName with
  | none => .raised
  | some body => body e.state

/-- `ParallelGraphExecutor._merge_node_result`: a `Command` becomes the
transient routing marker and its truthy `update` is merged (the merge
returns a fresh `State`, so the marker survives only when the update is
falsy); a dict result is merged directly; any other result leaves the
state untouched. -/
def mergeNodeResult (state : State) (result : PyResult)
    (fieldReducers : List (String × String)) : State :=
  match result with
  | .cmd command =>
      let state1 := { state with lastCommand := some command }
      if command.updateTruthy then
        state1.merge (command.update.getD []) fieldReducers
      else state1
  | .val v =>
      match v with
      | .vdict d => state.merge d fieldReducers
      | _ => state

/-- The comprehension filter of the fan-in merge:
`isinstance(pr, dict) and pr.get(key) is not None`. -/
def prDictGet (pr : PyResult) (key : String) : Option Value :=
  match pr with
  | .val (.vdict d) =>
      match alookup d key with
      | some v => if v.isNone then none else some v
      | none => none
  | _ => none

/-- `all_keys`: the union of the keys of every dict-shaped predecessor
result (a Python set, modelled in first-occurrence order). -/
def collectAllKeys (predResults : List PyResult) : List String :=
  (predResults.foldl
    (fun acc pr =>
      match pr with
      | .val (.vdict d) => acc ++ d.map Prod.fst
      | _ => acc) []).eraseDups

/-- The reducer-name selection chain of the fan-in merge (engine.py lines
337-345): override, else `_list`/`_history` suffix, else merge when ANY
incoming value is a dict and the current value is a dict, else set.
Unlike `State.merge` there is no `results` clause (handled separately). -/
def chooseFanInReducerName (fieldReducers : List (String × String))
    (key : String) (old : Option Value) (values : List Value) : String :=
  match alookup fieldReducers key with
  | some name =>
      if name ≠ "" && builtinReducerNames.contains name then name
      else chooseFanInDefault key old values
  | none => chooseFanInDefault key old values
where
  chooseFanInDefault (key : String) (old : Option Value)
      (values : List Value) : String :=
    if strEndsWith key "_list" || strEndsWith key "_history" then "extend"
    else if values.any Value.isDict && optIsDict old then "merge"
    else "set"

/-- The fan-in input computation (engine.py lines 310-350): start from a
copy of the global state, gather each predecessor's most recent result,
special-case the key `results` by flat concatenation, and fold every other
key's values through the selected reducer starting from the global state's
current value. -/
def fanInInput (fieldReducers : List (String × String)) (state : State)
    (nodeResults : List (String × List PyResult)) (preds : List String) :
    State :=
  let predResults := preds.filterMap
    (fun p => ((alookup nodeResults p).getD []).getLast?)
  let allKeys := collectAllKeys predResults
  allKeys.foldl
    (fun merged key =>
      let values := predResults.filterMap (fun pr => prDictGet pr key)
      if key = "results" then
        let mergedValue := values.foldl
          (fun acc v =>
            match v with
            | .vlist xs => acc ++ xs
            | _ => acc ++ [v]) []
        { merged with data := aset merged.data key (.vlist mergedValue) }
      else if values.isEmpty then merged
      else
        let name := chooseFanInReducerName fieldReducers key
          (alookup merged.data key) values
        let mergedValue := values.foldl (fun acc v => runReducerT name acc v)
          ((alookup merged.data key).getD .vnone)
        { merged with data := aset merged.data key mergedValue })
    state.copy

/-- One routing decision, recorded for specification purposes: the
completed node, the transient marker the resolution could observe (`none`
when `ainvoke` routed via the local command object without consulting the
marker), and the chosen successors. -/
structure RoutingEvent where
  nodeName : String
  observedCommand : Option Command
  successors : List String

/-- The per-run bookkeeping of `ainvoke`: global state, completed node ids
(insertion order), started-but-unfinished executions (start order), the
ready deque, and the append-only per-node result history. -/
structure RunSt where
  state : State
  completed : List String
  active : List Exec
  ready : List Exec
  nodeResults : List (String × List PyResult)
  routingLog : List RoutingEvent

/-- The admission loop (`while ready_nodes and len(pending_tasks) <
max_concurrent`): pop, discard already completed/active ids, recompute a
fan-in node's input from its predecessors' latest results, start. -/
def admitGo (E : Engine) (fieldReducers : List (String × String)) :
    List Exec → RunSt → RunSt
  | [], rs => rs
  | e :: rest, rs =>
      if rs.active.length < E.maxConcurrent then
        if rs.completed.contains e.nodeName ||
           (rs.active.map Exec.nodeName).contains e.nodeName then
          admitGo E fieldReducers rest rs
        else
          let preds := (alookup E.predecessors e.nodeName).getD []
          let e2 :=
            if preds.length > 1 then
              { e with state := fanInInput fieldReducers rs.state rs.nodeResults preds }
            else e
          admitGo E fieldReducers rest { rs with active := rs.active ++ [e2] }
      else
        { rs with ready := e :: rest }

/-- Completion handling (engine.py lines 363-430): an errored node is only
marked completed; a successful node is marked completed, its result
recorded, merged into global state, routed (Command override first), and
its ready successors plus the two defensive readiness sweeps are enqueued. -/
def processCompletion (E : Engine) (fieldReducers : List (String × String))
    (rs : RunSt) (nodeName : String) (outcome : NodeOutcome) : RunSt :=
  match outcome with
  | .raised => { rs with completed := rs.completed ++ [nodeName] }
  | .ok result =>
      let rs1 := { rs with
        completed := rs.completed ++ [nodeName],
        nodeResults := appendAt rs.nodeResults nodeName result }
      let routingCommand : Option Command :=
        if result.truthy then
          match result with
          | .cmd c => some c
          | _ => none
        else none
      let state1 :=
        if result.truthy then mergeNodeResult rs1.state result fieldReducers
        else rs1.state
      let routed : List String × State × Option Command :=
        match routingCommand with
        | some c =>
            if c.goto.truthy then (gotoIds c.goto, state1, none)
            else
              let r := getSuccessors E nodeName state1
              (r.1, r.2, state1.lastCommand)
        | none =>
            let r := getSuccessors E nodeName state1
            (r.1, r.2, state1.lastCommand)
      let rs2 := { rs1 with
        state := routed.2.1,
        routingLog := rs1.routingLog ++ [⟨nodeName, routed.2.2, routed.1⟩] }
      let rs3 := routed.1.foldl
        (fun acc succ =>
          if !(acc.completed.contains succ) &&
             !((acc.active.map Exec.nodeName).contains succ) &&
             areDependenciesMet E succ acc.completed then
            { acc with ready := acc.ready ++ [⟨succ, acc.state.copy⟩] }
          else acc) rs2
      let rs4 := E.predecessors.foldl
        (fun acc fp =>
          if fp.2.length > 1 && !(acc.completed.contains fp.1) &&
             !((acc.active.map Exec.nodeName).contains fp.1) &&
             fp.2.all (acc.completed.contains ·) then
            { acc with ready := acc.ready ++ [⟨fp.1, acc.state.copy⟩] }
          else acc) rs3
      E.successors.foldl
        (fun acc sk =>
          if !(acc.completed.contains sk.1) &&
             !((acc.active.map Exec.nodeName).contains sk.1) &&
             areDependenciesMet E sk.1 acc.completed then
            { acc with ready := acc.ready ++ [⟨sk.1, acc.state.copy⟩] }
          else acc) rs4

/-- Why a run can fail to produce a state: the structural `ValueError`
("No entry nodes found in graph"), or model fuel exhaustion. -/
inductive RunError where
  | noEntryNodes
  | outOfFuel
deriving DecidableEq, Repr

/-- The `while ready_nodes or pending_tasks` loop, under the modelled
schedule: admit everything that fits, then the oldest started task
finishes and is processed. Fuel bounds the number of completion events. -/
def runLoop (E : Engine) (fieldReducers : List (String × String)) :
    Nat → RunSt → Except RunError RunSt
  | 0, _ => .error .outOfFuel
  | fuel + 1, rs =>
      if rs.ready.isEmpty && rs.active.isEmpty then .ok rs
      else
        let rs1 := admitGo E fieldReducers rs.ready { rs with ready := [] }
        match rs1.active with
        | [] => .ok rs1
        | e :: restActive =>
            let outcome := executeNode E e
            runLoop E fieldReducers fuel
              (processCompletion E fieldReducers { rs1 with active := restActive }
                e.nodeName outcome)

/-- Terminal nodes at finalization: completed nodes with no static
successors (`not self.successors.get(n)`), in completion order. -/
def terminalNodes (E : Engine) (completed : List String) : List String :=
  completed.filter (fun n => ((alookup E.successors n).getD []).isEmpty)

/-- The finalization pass of `ainvoke`: merge each terminal node's latest
recorded result into the global state once more. -/
def finalize (E : Engine) (fieldReducers : List (String × String))
    (rs : RunSt) : State :=
  let terminals := terminalNodes E rs.completed
  let terminalResults := terminals.filterMap
    (fun n => ((alookup rs.nodeResults n).getD []).getLast?)
  terminalResults.foldl (fun st r => mergeNodeResult st r fieldReducers) rs.state

/-- What `ainvoke` produces, plus the bookkeeping the specification talks
about (completed set, terminal nodes, recorded results, routing log). -/
structure RunResult where
  finalState : State
  completed : List String
  terminals : List String
  nodeResults : List (String × List PyResult)
  routingLog : List RoutingEvent

/-- `ParallelGraphExecutor.ainvoke` (and `invoke`, its synchronous
wrapper): raise if no entry nodes, seed the ready queue with entry nodes
present in the node map, run the loop to fixpoint, finalize. -/
def ainvokeR (E : Engine) (initialState : List (String × Value))
    (fieldReducers : List (String × String)) (fuel : Nat) :
    Except RunError RunResult :=
  let state : State := { data := initialState, lastCommand := none }
  let entryNodes := getEntryNodes E
  if entryNodes.isEmpty then .error .noEntryNodes
  else
    let ready := entryNodes.filterMap
      (fun n =>
        if (alookup E.graph.nodes n).isSome then some (⟨n, state.copy⟩ : Exec)
        else none)
    (runLoop E fieldReducers fuel
        { state := state, completed := [], active := [], ready := ready,
          nodeResults := [], routingLog := [] }).map
      (fun rs =>
        { finalState := finalize E fieldReducers rs,
          completed := rs.completed,
          terminals := terminalNodes E rs.completed,
          nodeResults := rs.nodeResults,
          routingLog := rs.routingLog })

/-! Specification-side definition used for the reducer-selection
refinement claim, plus the concrete graphs the scenario claims are about. -/

/-- Reducer-selection priority exactly as the specification states it:
(a) the caller-supplied override name for the key, if present in the
registry; (b) `extend` when the key ends in `_list` or `_history`;
(c) `extend` when the key is literally `results`; (d) `merge` when both
the state's old value and the update's new value are maps; (e) `set`.
Written from the specification's words, to be compared with the
source-derived `chooseReducerName`. -/
def specReducerPriority (fieldReducers : List (String × String)) (key : String)
    (old : Option Value) (value : Value) : String :=
  match alookup fieldReducers key with
  | some name =>
      if builtinReducerNames.contains name then name
      else specReducerFallback key old value
  | none => specReducerFallback key old value
where
  specReducerFallback (key : String) (old : Option Value) (value : Value) :
      String :=
    if strEndsWith key "_list" || strEndsWith key "_history" then "extend"
    else if key = "results" then "extend"
    else if optIsDict old && value.isDict then "merge"
    else "set"

/-- A node body that ignores its input and returns the one-key dict
`(k, vint n)`. -/
def constDictNode (k : String) (n : Int) : State → NodeOutcome :=
  fun _ => .ok (.val (.vdict [(k, .vint n)]))

/-- The C1 scenario graph: entry `E`, then `add_edge("E","B")` followed by
`add_edge("E","C")`, exactly as a caller declaring the two static edges
would build it. -/
def gC1 : Graph :=
  Graph.addEdge
    (Graph.addEdge
      { nodes := [("E", constDictNode "e" 1), ("B", constDictNode "b" 1),
                  ("C", constDictNode "c" 1)],
        edges := [], conditionalEdges := [], entryPoint := some "E" }
      "E" "B")
    "E" "C"

/-- The C2 join graph: static edges `P1 → J` and `P2 → J`, so `J` has the
two static predecessors `P1` and `P2`. -/
def gJoin : Graph :=
  { nodes := [("P1", constDictNode "p1" 1), ("P2", constDictNode "p2" 1),
              ("J", constDictNode "j" 1)],
    edges := [("P1", "J"), ("P2", "J")], conditionalEdges := [],
    entryPoint := none }

/-- Most recent results for C2: `P1` emitted `{"items": [1]}` and `P2`
emitted `{"items": [2]}`. -/
def nrJoin : List (String × List PyResult) :=
  [("P1", [.val (.vdict [("items", .vlist [.vint 1])])]),
   ("P2", [.val (.vdict [("items", .vlist [.vint 2])])])]

/-- The Command node `A` returns for C3: `Command(goto="Z")`, no update. -/
def cmdGotoZ : Command := { update := none, goto := .str "Z" }

/-- The C3 graph: `A` returns `Command(goto="Z")` and `Z` returns `None`. -/
def gC3 : Graph :=
  { nodes := [("A", fun _ => .ok (.cmd cmdGotoZ)),
              ("Z", fun _ => .ok (.val .vnone))],
    edges := [], conditionalEdges := [], entryPoint := some "A" }

/-- The C4 graph: chain `A → X → Y → T` where `X`'s body raises, plus an
independent chain `B → C → D`; entry `A`. -/
def gC4 : Graph :=
  { nodes := [("A", constDictNode "a" 1), ("X", fun _ => .raised),
              ("Y", constDictNode "y" 1), ("T", constDictNode "t" 1),
              ("B", constDictNode "b" 1), ("C", constDictNode "c" 1),
              ("D", constDictNode "d" 1)],
    edges := [("A", "X"), ("X", "Y"), ("Y", "T"), ("B", "C"), ("C", "D")],
    conditionalEdges := [], entryPoint := some "A" }

/-- The C5 graph: nodes `A` and `B`, one static edge `A → B`, no declared
entry point. `A` is the only node that is not an edge target. -/
def gC5 : Graph :=
  { nodes := [("A", constDictNode "a" 1), ("B", constDictNode "b" 1)],
    edges := [("A", "B")], conditionalEdges := [], entryPoint := none }

/-- The C6 structural-error graph: a two-node cycle with no declared entry
point, so no entry node is resolvable. -/
def gCycle : Graph :=
  { nodes := [("P", constDictNode "p" 1), ("Q", constDictNode "q" 1)],
    edges := [("P", "Q"), ("Q", "P")], conditionalEdges := [],
    entryPoint := none }

/-- The C6 missing-node graph: the edge `A → Z` references node id `Z`,
which is absent from the node map. -/
def gMissing : Graph :=
  { nodes := [("A", constDictNode "a" 1)],
    edges := [("A", "Z")], conditionalEdges := [], entryPoint := some "A" }

/-! Association-list lemmas shared by the merge theorems. -/

theorem alookup_aset {β : Type} (m : List (String × β)) (k : String) (v : β)
    (k' : String) :
    alookup (aset m k v) k' = if k' = k then some v else alookup m k' := by
  induction m with
  | nil =>
      by_cases h : k' = k <;> simp [aset, alookup, h]
  | cons hd tl ih =>
      obtain ⟨k0, v0⟩ := hd
      by_cases h0 : k0 = k
      · subst h0
        by_cases h : k' = k0 <;> simp [aset, alookup, h]
      · by_cases h : k' = k0
        · subst h
          have hk : ¬ k' = k := fun he => h0 (he ▸ rfl)
          simp [aset, alookup, h0, hk]
        · simp [aset, alookup, h0, h, ih]

theorem alookup_eq_none_of_not_mem {β : Type} (m : List (String × β))
    (k : String) (h : k ∉ m.map Prod.fst) : alookup m k = none := by
  induction m with
  | nil => rfl
  | cons hd tl ih =>
      obtain ⟨k0, v0⟩ := hd
      simp only [List.map_cons, List.mem_cons] at h
      push_neg at h
      simp [alookup, h.1, ih h.2]

theorem mem_of_alookup_eq_some {β : Type} (m : List (String × β))
    (k : String) (v : β) (h : alookup m k = some v) : k ∈ m.map Prod.fst := by
  by_contra hk
  rw [alookup_eq_none_of_not_mem m k hk] at h
  exact Option.noConfusion h

theorem alookup_mergeLoop_not_mem (s : State)
    (fr : List (String × String)) (u : List (String × Value))
    (acc : List (String × Value)) (k : String) (h : k ∉ u.map Prod.fst) :
    alookup (mergeLoop s fr acc u) k = alookup acc k := by
  induction u generalizing acc with
  | nil => rfl
  | cons hd tl ih =>
      obtain ⟨k0, v0⟩ := hd
      simp only [List.map_cons, List.mem_cons] at h
      push_neg at h
      rw [mergeLoop, ih _ h.2, alookup_aset]
      simp [h.1]

theorem alookup_mergeLoop_mem (s : State)
    (fr : List (String × String)) (u : List (String × Value))
    (acc : List (String × Value)) (k : String) (v : Value)
    (hnd : (u.map Prod.fst).Nodup) (hk : alookup u k = some v) :
    alookup (mergeLoop s fr acc u) k = some (mergeStepVal s fr k v) := by
  induction u generalizing acc with
  | nil => exact Option.noConfusion hk
  | cons hd tl ih =>
      obtain ⟨k0, v0⟩ := hd
      simp only [List.map_cons, List.nodup_cons] at hnd
      by_cases h : k = k0
      · subst h
        rw [alookup] at hk
        simp only [if_pos rfl] at hk
        obtain rfl : v0 = v := Option.some.injEq v0 v ▸ hk
        rw [mergeLoop, alookup_mergeLoop_not_mem s fr tl _ k hnd.1,
          alookup_aset]
        simp
      · rw [alookup] at hk
        simp only [if_neg h] at hk
        rw [mergeLoop]
        exact ih _ hnd.2 hk

theorem merge_getOpt_not_mem (s : State) (u : List (String × Value))
    (fr : List (String × String)) (k : String) (h : k ∉ u.map Prod.fst) :
    (s.merge u fr).getOpt k = s.getOpt k :=
  alookup_mergeLoop_not_mem s fr u s.data k h

theorem merge_getOpt_mem (s : State) (u : List (String × Value))
    (fr : List (String × String)) (k : String) (v : Value)
    (hnd : (u.map Prod.fst).Nodup) (hk : alookup u k = some v) :
    (s.merge u fr).getOpt k = some (mergeStepVal s fr k v) :=
  alookup_mergeLoop_mem s fr u s.data k v hnd hk

theorem chooseReducerName_eq_spec (fr : List (String × String)) (key : String)
    (old : Option Value) (value : Value) :
    chooseReducerName fr key old value = specReducerPriority fr key old value := by
  have hdef : chooseReducerName.chooseReducerDefault key old value =
      specReducerPriority.specReducerFallback key old value := by
    unfold chooseReducerName.chooseReducerDefault
      specReducerPriority.specReducerFallback
    rw [Bool.and_comm]
  unfold chooseReducerName specReducerPriority
  cases h : alookup fr key with
  | none => exact hdef
  | some name =>
      by_cases hn : name = ""
      · subst hn
        simp [builtinReducerNames, hdef]
      · simp [hn, hdef]

/-! The claim theorems. -/

/-- C1 counterexample: declaring `add_edge("E","B")` then `add_edge("E","C")`
leaves only the edge `E → C` (the edges dict holds one target per source),
so the run completes only `E` and `C`: `B` is never dispatched, is not
terminal, and its output is absent from the final state - refuting the
claim that both `B` and `C` complete and are merged. -/
theorem c1_two_edges_counterexample :
    gC1.edges = [("E", "C")] ∧
    (ainvokeR (mkEngine gC1 10) [] [] 20).map RunResult.completed =
      .ok ["E", "C"] ∧
    (ainvokeR (mkEngine gC1 10) [] [] 20).map
      (fun r => r.completed.contains "B") = .ok false ∧
    (ainvokeR (mkEngine gC1 10) [] [] 20).map
      (fun r => alookup r.finalState.data "b") = .ok none :=
  ⟨rfl, rfl, rfl, rfl⟩

/-- C1 (amended): because `add_edge` stores at most one static successor
per source, declaring `E→B` then `E→C` leaves only `E→C`; `invoke`/`ainvoke`
completes exactly `E` and `C`, `C` is the sole terminal node, `B` is never
dispatched, and the final state is the merge of `E`'s and `C`'s outputs. -/
theorem c1_last_edge_wins :
    gC1.edges = [("E", "C")] ∧
    ainvokeR (mkEngine gC1 10) [] [] 20 = .ok
      { finalState := { data := [("e", .vint 1), ("c", .vint 1)],
                        lastCommand := none },
        completed := ["E", "C"],
        terminals := ["C"],
        nodeResults := [("E", [.val (.vdict [("e", .vint 1)])]),
                        ("C", [.val (.vdict [("c", .vint 1)])])],
        routingLog := [⟨"E", none, ["C"]⟩, ⟨"C", none, []⟩] } :=
  ⟨rfl, rfl⟩

/-- C2 counterexample: with `P1`'s latest result `{"items": [1]}` and
`P2`'s latest result `{"items": [2]}`, the fan-in input computed for join
node `J` (whose static predecessors are `["P1", "P2"]`) carries
`items = [2]` - the `set` reducer kept only the last predecessor's value,
so the value does not contain `P1`'s element `1`. -/
theorem c2_fanin_counterexample :
    alookup (mkEngine gJoin 10).predecessors "J" = some ["P1", "P2"] ∧
    alookup (fanInInput [] { data := [], lastCommand := none } nrJoin
      ["P1", "P2"]).data "items" = some (.vlist [.vint 2]) ∧
    Value.vint 1 ∉ [Value.vint 2] := by
  refine ⟨rfl, rfl, ?_⟩
  intro h
  simp only [List.mem_singleton] at h
  exact absurd (Value.vint.injEq 1 2 ▸ h) (by norm_num)

/-- C2 (amended): for a join node with static predecessors `P1, P2` whose
latest results are `{"items": [x]}` and `{"items": [y]}`, the key `items`
is routed to the `set` reducer, so the fan-in input's `items` value equals
`[y]` alone - the last predecessor's value - rather than containing both
`x` and `y`. -/
theorem c2_fanin_set_keeps_last (x y : Value) :
    alookup (fanInInput [] { data := [], lastCommand := none }
      [("P1", [.val (.vdict [("items", .vlist [x])])]),
       ("P2", [.val (.vdict [("items", .vlist [y])])])]
      ["P1", "P2"]).data "items" = some (.vlist [y]) := by
  rfl

/-- C3 counterexample: `A` returns `Command(goto="Z", update=None)`; the
command-branch routing never consults the marker and the falsy update
means no merge replaces the state, so the marker survives `A`'s completion.
`Z` then completes with the falsy result `None`, and the routing decision
for `Z`'s completion observes (and only then consumes) the `Command`
emitted by `A` - refuting the claim that a marker, once read, cannot reach
a later, different completion's routing decision. -/
theorem c3_marker_leaks_counterexample :
    (ainvokeR (mkEngine gC3 10) [] [] 10).map RunResult.routingLog =
      .ok [⟨"A", none, ["Z"]⟩, ⟨"Z", some cmdGotoZ, ["Z"]⟩] ∧
    "A" ≠ "Z" :=
  ⟨rfl, by decide⟩

/-- C3 (amended): whenever `get_successors` routes via the marker - the
marker is present and its `goto` is truthy - the marker is cleared by the
time the resolution finishes; but (see the counterexample) a Command whose
completion was routed through the local command object can leave the
marker set and be observed by a later, different completion's resolution. -/
theorem c3_truthy_goto_marker_cleared (E : Engine) (n : String) (s : State)
    (c : Command) (hm : s.lastCommand = some c)
    (ht : c.goto.truthy = true) :
    (getSuccessors E n s).2.lastCommand = none := by
  simp [getSuccessors, hm, ht]

theorem c3_truthy_goto_marker_cleared_witness :
    ({ data := [], lastCommand := some cmdGotoZ } : State).lastCommand =
      some cmdGotoZ ∧
    cmdGotoZ.goto.truthy = true ∧
    (getSuccessors (mkEngine gC3 10) "Z"
      { data := [], lastCommand := some cmdGotoZ }).2.lastCommand = none :=
  ⟨rfl, rfl,
    c3_truthy_goto_marker_cleared (mkEngine gC3 10) "Z"
      { data := [], lastCommand := some cmdGotoZ } cmdGotoZ rfl rfl⟩

/-- C4 counterexample: in `gC4`, `Y`'s sole static predecessor is `X`, and
`X`'s body raises (it records no result); yet `Y` is dispatched and
completes, because the failed `X` is added to the completed set and the
defensive readiness sweep at `B`'s completion finds `Y`'s predecessors
satisfied - refuting "Y never becomes ready". -/
theorem c4_error_isolation_counterexample :
    alookup (mkEngine gC4 10).predecessors "Y" = some ["X"] ∧
    (ainvokeR (mkEngine gC4 10) [] [] 30).map
      (fun r => alookup r.nodeResults "X") = .ok none ∧
    (ainvokeR (mkEngine gC4 10) [] [] 30).map RunResult.completed =
      .ok ["A", "X", "B", "C", "Y", "D", "T"] :=
  ⟨rfl, rfl, rfl⟩

/-- C4 (amended): a node whose body raises is marked completed, records no
result, contributes no state update and enqueues nothing at its own
completion event; nodes that do not depend on it still complete; but a
node whose sole static predecessor failed CAN still become ready via the
readiness sweep of a later completion event, because the failed node
enters the completed set consulted by `are_dependencies_met`. -/
theorem c4_error_isolation_amended :
    (∀ (E : Engine) (fr : List (String × String)) (rs : RunSt)
        (name : String),
      (processCompletion E fr rs name .raised).state = rs.state ∧
      (processCompletion E fr rs name .raised).ready = rs.ready ∧
      (processCompletion E fr rs name .raised).nodeResults = rs.nodeResults ∧
      (processCompletion E fr rs name .raised).completed =
        rs.completed ++ [name]) ∧
    (ainvokeR (mkEngine gC4 10) [] [] 30).map RunResult.completed =
      .ok ["A", "X", "B", "C", "Y", "D", "T"] :=
  ⟨fun _ _ _ _ => ⟨rfl, rfl, rfl, rfl⟩, rfl⟩

/-- C5: on the graph with nodes `A`, `B` and the single static edge
`A → B` (no declared entry point), `get_entry_nodes` returns `["B"]` - the
node with no OUTGOING edge - although its own docstring ("nodes that have
no predecessors") and the claim require `["A"]`: the code subtracts the
union of the predecessor map's VALUES (the edge sources) instead of its
keys (the edge targets). -/
theorem c5_entry_nodes_bug :
    getEntryNodes (mkEngine gC5 10) = ["B"] ∧ (["B"] : List String) ≠ ["A"] :=
  ⟨rfl, by decide⟩

/-- C6 counterexample: in `gMissing` the edge `A → Z` references node id
`Z`, absent from the node map; yet the run does not fail fast: `A`'s body
is dispatched and its result recorded, `Z` is dispatched, raises `KeyError`
inside the per-node try, and is marked completed-with-error (no result),
and `ainvoke` returns a final state normally. -/
theorem c6_no_fail_fast_counterexample :
    alookup gMissing.nodes "Z" = none ∧
    (ainvokeR (mkEngine gMissing 10) [] [] 10).map RunResult.completed =
      .ok ["A", "Z"] ∧
    (ainvokeR (mkEngine gMissing 10) [] [] 10).map
      (fun r => alookup r.nodeResults "A") =
      .ok (some [.val (.vdict [("a", .vint 1)])]) ∧
    (ainvokeR (mkEngine gMissing 10) [] [] 10).map
      (fun r => alookup r.nodeResults "Z") = .ok none :=
  ⟨rfl, rfl, rfl, rfl⟩

/-- C6 (amended): if no entry node can be resolved, `ainvoke` raises its
structural `ValueError` before any dispatch; but a referenced node id
absent from the node map does NOT fail fast - the node is dispatched, its
lookup error is swallowed as a per-node failure, and the run completes
normally. -/
theorem c6_structural_error_amended :
    (∀ (E : Engine) (init : List (String × Value))
        (fr : List (String × String)) (fuel : Nat),
      getEntryNodes E = [] → ainvokeR E init fr fuel = .error .noEntryNodes) ∧
    ((ainvokeR (mkEngine gMissing 10) [] [] 10).map RunResult.completed =
        .ok ["A", "Z"] ∧
      alookup gMissing.nodes "Z" = none) := by
  refine ⟨?_, rfl, rfl⟩
  intro E init fr fuel h
  simp [ainvokeR, h]

theorem c6_structural_error_amended_witness :
    getEntryNodes (mkEngine gCycle 10) = [] ∧
    ainvokeR (mkEngine gCycle 10) [] [] 10 = .error .noEntryNodes :=
  ⟨rfl, c6_structural_error_amended.1 (mkEngine gCycle 10) [] [] 10 rfl⟩

theorem not_mem_of_alookup_eq_none {β : Type} (m : List (String × β))
    (k : String) (h : alookup m k = none) : k ∉ m.map Prod.fst := by
  induction m with
  | nil => simp
  | cons hd tl ih =>
      obtain ⟨k0, v0⟩ := hd
      rw [alookup] at h
      by_cases hk : k = k0
      · rw [if_pos hk] at h
        exact Option.noConfusion h
      · rw [if_neg hk] at h
        simp only [List.map_cons, List.mem_cons]
        push_neg
        exact ⟨hk, ih h⟩

theorem alookup_merge_data_not_mem (s : State) (u : List (String × Value))
    (fr : List (String × String)) (k : String) (h : k ∉ u.map Prod.fst) :
    alookup (s.merge u fr).data k = alookup s.data k :=
  alookup_mergeLoop_not_mem s fr u s.data k h

theorem alookup_merge_data_mem (s : State) (u : List (String × Value))
    (fr : List (String × String)) (k : String) (v : Value)
    (hnd : (u.map Prod.fst).Nodup) (hk : alookup u k = some v) :
    alookup (s.merge u fr).data k = some (mergeStepVal s fr k v) :=
  alookup_mergeLoop_mem s fr u s.data k v hnd hk

/-- C7: for every key `k` of an update (with unique keys) passed to
`State.merge`, the merged value at `k` is the result of applying exactly
the reducer selected by the specification's priority chain
(`specReducerPriority`) to the receiver's old value and the update's
value. -/
theorem c7_merge_reducer_priority (s : State) (u : List (String × Value))
    (fr : List (String × String)) (k : String) (v : Value)
    (hnd : (u.map Prod.fst).Nodup) (hk : alookup u k = some v) :
    alookup (s.merge u fr).data k =
      some (runReducerT (specReducerPriority fr k (s.getOpt k) v)
        ((s.getOpt k).getD .vnone) v) := by
  rw [alookup_merge_data_mem s u fr k v hnd hk]
  unfold mergeStepVal
  rw [chooseReducerName_eq_spec]

theorem c7_merge_reducer_priority_witness :
    alookup ((({ data := [], lastCommand := none } : State).merge
      [("results", .vlist [.vint 1])] []).data) "results" =
      some (runReducerT (specReducerPriority [] "results"
        (({ data := [], lastCommand := none } : State).getOpt "results")
        (.vlist [.vint 1]))
        ((({ data := [], lastCommand := none } : State).getOpt
          "results").getD .vnone)
        (.vlist [.vint 1])) :=
  c7_merge_reducer_priority { data := [], lastCommand := none }
    [("results", .vlist [.vint 1])] [] "results" (.vlist [.vint 1])
    (by simp) rfl

/-- C8: merging two updates with disjoint (duplicate-free) key sets is
order-independent on every key; and for a key present in both updates
whose second merge resolves to the `set` reducer, the later merge's value
is the one in the final mapping. -/
theorem c8_merge_determinism (s : State) (u v : List (String × Value))
    (fr : List (String × String)) :
    ((u.map Prod.fst).Nodup → (v.map Prod.fst).Nodup →
      (∀ k, k ∈ u.map Prod.fst → k ∉ v.map Prod.fst) →
      ∀ k, alookup ((s.merge u fr).merge v fr).data k =
        alookup ((s.merge v fr).merge u fr).data k) ∧
    (∀ (k : String) (b : Value), (v.map Prod.fst).Nodup →
      alookup v k = some b →
      chooseReducerName fr k ((s.merge u fr).getOpt k) b = "set" →
      alookup ((s.merge u fr).merge v fr).data k = some b) := by
  constructor
  · intro hu hv hd k
    cases hku : alookup u k with
    | some a =>
        have hmem : k ∈ u.map Prod.fst := mem_of_alookup_eq_some u k a hku
        have hnv : k ∉ v.map Prod.fst := hd k hmem
        rw [alookup_merge_data_not_mem (s.merge u fr) v fr k hnv]
        rw [alookup_merge_data_mem s u fr k a hu hku]
        rw [alookup_merge_data_mem (s.merge v fr) u fr k a hu hku]
        unfold mergeStepVal
        rw [merge_getOpt_not_mem s v fr k hnv]
    | none =>
        have hnu : k ∉ u.map Prod.fst := not_mem_of_alookup_eq_none u k hku
        cases hkv : alookup v k with
        | some b =>
            have hnvmem : k ∈ v.map Prod.fst :=
              mem_of_alookup_eq_some v k b hkv
            rw [alookup_merge_data_not_mem (s.merge v fr) u fr k hnu]
            rw [alookup_merge_data_mem s v fr k b hv hkv]
            rw [alookup_merge_data_mem (s.merge u fr) v fr k b hv hkv]
            unfold mergeStepVal
            rw [merge_getOpt_not_mem s u fr k hnu]
        | none =>
            have hnv : k ∉ v.map Prod.fst := not_mem_of_alookup_eq_none v k hkv
            rw [alookup_merge_data_not_mem (s.merge u fr) v fr k hnv]
            rw [alookup_merge_data_not_mem (s.merge v fr) u fr k hnu]
            rw [alookup_merge_data_not_mem s u fr k hnu]
            rw [alookup_merge_data_not_mem s v fr k hnv]
  · intro k b hv hkv hset
    rw [alookup_merge_data_mem (s.merge u fr) v fr k b hv hkv]
    unfold mergeStepVal
    rw [hset]
    rfl

theorem c8_merge_determinism_witness :
    (alookup ((({ data := [], lastCommand := none } : State).merge
        [("x", .vint 1)] []).merge [("y", .vint 2)] []).data "x" =
      alookup ((({ data := [], lastCommand := none } : State).merge
        [("y", .vint 2)] []).merge [("x", .vint 1)] []).data "x") ∧
    alookup ((({ data := [], lastCommand := none } : State).merge
        [("x", .vint 1)] []).merge [("x", .vint 5)] []).data "x" =
      some (.vint 5) := by
  constructor
  · exact (c8_merge_determinism { data := [], lastCommand := none }
      [("x", .vint 1)] [("y", .vint 2)] []).1 (by simp) (by simp)
      (by
        intro k hk
        simp only [List.map_cons, List.map_nil, List.mem_singleton] at hk
        subst hk
        decide) "x"
  · exact (c8_merge_determinism { data := [], lastCommand := none }
      [("x", .vint 1)] [("x", .vint 5)] []).2 "x" (.vint 5) (by simp) rfl
      (by decide)

/-- C9: each of the four built-in reducers, applied to any pair of values
(None, scalar, list or map in each component), returns a defined value -
the modelled Python evaluation never reaches a raising operation. -/
theorem c9_reducers_total (old new : Value) :
    (appendReducer old new).isSome = true ∧
    (extendReducer old new).isSome = true ∧
    (setReducer old new).isSome = true ∧
    (mergeReducer old new).isSome = true := by
  refine ⟨?_, ?_, ?_, ?_⟩ <;> cases old <;> cases new <;>
    simp [appendReducer, extendReducer, setReducer, mergeReducer, pyAdd,
      Value.isNone, Value.isList]

/-- C10: `State.merge` always returns a state whose transient last-command
marker is `None` (the fresh `State.__init__` resets it), even when the
receiver's marker was set, while `State.copy` preserves the marker. -/
theorem c10_merge_clears_marker_copy_preserves (s : State)
    (u : List (String × Value)) (fr : List (String × String)) :
    (s.merge u fr).lastCommand = none ∧ s.copy.lastCommand = s.lastCommand :=
  ⟨rfl, rfl⟩
